import Mathlib

/-!
Verification model of `src/nbind.ts` (the nbind artifact locator and binding
initializer).  The TypeScript source is shallowly embedded: the host services
it consumes (`path.extname`, `path.resolve`, `require.resolve`, `require`,
`process.*`) are packaged into an explicit environment record, and the
stateful callback protocol is rendered as explicit state passing plus a trace
of callback invocations.
-/

namespace Nbind

/-- The `type` tag of a module spec: `'node' | 'emcc'` in the source. -/
inductive ModType where
  | node
  | emcc
deriving DecidableEq, Repr

/-- `ModuleSpec` from nbind.ts: compiled C++ binary type and path.
`path` is optional and only set by the locator on success. -/
structure ModuleSpec where
  type : ModType
  ext : String
  name : String
  path : Option String := none
deriving DecidableEq, Repr

/-- Result of `require(path)` for the native-addon branch: the loaded value is
either falsy, a truthy non-object, or an object modelled as an ordered
association list of exported (key, value) pairs. -/
inductive LoadResult where
  | falsy
  | nonObject
  | object (entries : List (String × Nat))
deriving DecidableEq, Repr

/-- Host environment consumed by nbind.ts: the `path` module, Node's
`require.resolve` / `require`, and `process` fields.  `requireResolve`
returns `some resolved` where the source's `require.resolve` returns a path
and `none` where it throws; `requireLoad` is `require` on the addon branch. -/
structure Env where
  cwd : String
  extname : String → String
  resolve : List String → String
  requireResolve : String → Option String
  requireLoad : String → LoadResult
  compiledDirEnv : Option String
  nodeVersion : String
  platform : String
  arch : String

/-- `makeModulePathList` from nbind.ts lines 97-129: list of possible path
part lists for a single compiled output file name. -/
def makeModulePathList (env : Env) (root : String) (name : String) :
    List (List String) :=
  [ [root, name],
    [root, "build", name],
    [root, "build", "Debug", name],
    [root, "build", "Release", name],
    [root, "out", "Debug", name],
    [root, "Debug", name],
    [root, "out", "Release", name],
    [root, "Release", name],
    [root, "build", "default", name],
    [root,
      (match env.compiledDirEnv with
        | some s => if s = "" then "compiled" else s
        | none => "compiled"),
      env.nodeVersion,
      env.platform,
      env.arch,
      name] ]

/-- The locator's single callback invocation: `callback(null, spec)` on
success, `callback(err)` on exhaustion (the error carries `message` and the
structured `tries` field). -/
structure FindErr where
  message : String
  tries : List String
deriving DecidableEq, Repr

/-- One invocation of the `FindCallback` given to `findCompiledModule`. -/
inductive FindEvent where
  | found (spec : ModuleSpec)
  | failed (err : FindErr)
deriving DecidableEq, Repr

/-- First loop of `findCompiledModule` (lines 143-155): if `basePath` has a
known extension, check whether it is itself a loadable module; a failed
resolution pushes `basePath` onto `resolvedList` and the loop continues. -/
def fastPathLoop (env : Env) (basePath : String) :
    List ModuleSpec → List String → List String × Option ModuleSpec
  | [], resolvedList => (resolvedList, none)
  | spec :: rest, resolvedList =>
    if env.extname basePath = spec.ext then
      match env.requireResolve basePath with
      | some p => (resolvedList, some { spec with path := some p })
      | none => fastPathLoop env basePath rest (resolvedList ++ [basePath])
    else
      fastPathLoop env basePath rest resolvedList

/-- Inner loop of the directory search (lines 163-177): try every path-part
list for one spec, recording unsuccessful attempts. -/
def dirLoopInner (env : Env) (spec : ModuleSpec) :
    List (List String) → List String → List String × Option ModuleSpec
  | [], resolvedList => (resolvedList, none)
  | pathParts :: rest, resolvedList =>
    let resolvedPath := env.resolve pathParts
    match env.requireResolve resolvedPath with
    | some p => (resolvedList, some { spec with path := some p })
    | none => dirLoopInner env spec rest (resolvedList ++ [resolvedPath])

/-- Outer loop of the directory search (lines 159-178): specs in registry
order, templates in template order. -/
def dirLoop (env : Env) (basePath : String) :
    List ModuleSpec → List String → List String × Option ModuleSpec
  | [], resolvedList => (resolvedList, none)
  | spec :: rest, resolvedList =>
    match dirLoopInner env spec (makeModulePathList env basePath spec.name)
        resolvedList with
    | (acc, some s) => (acc, some s)
    | (acc, none) => dirLoop env basePath rest acc

/-- Message of the exhaustion error (lines 180-183). -/
def findErrMessage (tries : List String) : String :=
  "Could not locate the bindings file. Tried:\n" ++
    String.intercalate "\n" tries

/-- Directory-search phase plus exhaustion error of `findCompiledModule`:
run the nested loops; on success invoke the callback with the spec, otherwise
build the error (message plus `tries` field) and invoke the callback with it. -/
def dirPhase (env : Env) (basePath : String) (specList : List ModuleSpec)
    (resolvedList : List String) : List FindEvent × Option ModuleSpec :=
  match dirLoop env basePath specList resolvedList with
  | (_, some spec) => ([FindEvent.found spec], some spec)
  | (acc, none) =>
    ([FindEvent.failed ⟨findErrMessage acc, acc⟩], none)

/-- `findCompiledModule` from nbind.ts lines 133-189.  The first component is
the list of callback invocations in order; the second is the returned value
(`spec` on success, `null` on failure). -/
def findCompiledModule (env : Env) (basePath : String)
    (specList : List ModuleSpec) : List FindEvent × Option ModuleSpec :=
  match fastPathLoop env basePath specList [] with
  | (_, some spec) => ([FindEvent.found spec], some spec)
  | (acc, none) => dirPhase env basePath specList acc

/-- The fixed two-entry registry passed by `find` (lines 204-207). -/
def defaultSpecList : List ModuleSpec :=
  [ { type := ModType.node, ext := ".node", name := "nbind.node" },
    { type := ModType.emcc, ext := ".js", name := "nbind.js" } ]

/-- `find` from nbind.ts lines 199-209: search under the given path, or under
the current working directory when the path is absent or falsy (empty). -/
def find (env : Env) (basePath : Option String) :
    List FindEvent × Option ModuleSpec :=
  findCompiledModule env
    (match basePath with
      | some s => if s = "" then env.cwd else s
      | none => env.cwd)
    defaultSpecList

/-! ## Binding initializer -/

/-- The library object carried in `Binding.lib`.  `entries` are the plain
exported (key, value) pairs; `locateFile` and `onRuntimeReadyHook` record the
presence of the two Emscripten hook fields (`locateFile` and the
runtime-ready hook `onRuntimeInitialized` — behaviour of the hooks themselves
is external to nbind.ts, only their installation and wiring is modelled). -/
structure LibObj where
  entries : List (String × Nat) := []
  locateFile : Bool := false
  onRuntimeReadyHook : Bool := false
deriving DecidableEq, Repr

/-- `Binding` from nbind.ts: `binary` and `lib` are declared but unassigned
(`undefined`) until the initializer sets them, hence `Option`. -/
structure Binding where
  binary : Option ModuleSpec := none
  lib : Option LibObj := none
deriving DecidableEq, Repr

/-- The three error shapes the init callback can receive: the locator's
exhaustion error, `new Error('Error loading addon')`, and whatever
`lib.ccall('nbind_init')` threw. -/
inductive InitErr where
  | findError (message : String) (tries : List String)
  | loadError (message : String)
  | bootError (message : String)
deriving DecidableEq, Repr

/-- One invocation of the `InitCallback`: `callback(err)` or
`callback(null, binding)`. -/
structure CbCall where
  err : Option InitErr
  result : Option Binding
deriving DecidableEq, Repr

/-- JavaScript object-property assignment `m[k] = v` on an association list
(JS objects have unique keys, kept in insertion order): an existing key keeps
its position and gets the new value, a new key is appended. -/
def setKey : List (String × Nat) → String → Nat → List (String × Nat)
  | [], k, v => [(k, v)]
  | q :: rest, k, v =>
    if q.1 = k then (k, v) :: rest else q :: setKey rest k v

/-- JavaScript property read `m[k]` (`undefined` as `none`). -/
def getKey : List (String × Nat) → String → Option Nat
  | [], _ => none
  | q :: rest, k => if q.1 = k then some q.2 else getKey rest k

/-- The wrapper closure that `initAsm` installs as the runtime-ready hook
captures whether a caller-supplied hook existed before wrapping, and the
binding object to deliver on success. -/
structure AsmPending where
  hasOrigHook : Bool
  binding : Binding
deriving DecidableEq, Repr

/-- `initAsm` from nbind.ts lines 269-298 (the part executed synchronously):
default the `locateFile` hook, save any caller-supplied runtime-ready hook,
install the wrapping hook, publish the binding as `currentBinding` and
trigger the load with `require`.  Returns the mutated binding and the
installed wrapper's captured state; the wrapper itself fires later, via
`fireRuntimeReadyHook`. -/
def initAsm (binding : Binding) : Binding × AsmPending :=
  let lib := binding.lib.getD {}
  let lib1 : LibObj := { lib with locateFile := true }
  let orig := lib.onRuntimeReadyHook
  let lib2 : LibObj := { lib1 with onRuntimeReadyHook := true }
  let b2 : Binding := { binding with lib := some lib2 }
  (b2, { hasOrigHook := orig, binding := b2 })

/-- Observable actions of the wrapping runtime-ready hook. -/
inductive AsmEvent where
  | origHook
  | ccallNbindInit
deriving DecidableEq, Repr

/-- The wrapping runtime-ready hook installed by `initAsm` (lines 281-292),
fired once by the Emscripten runtime: invoke the original hook first if one
existed, then `lib.ccall('nbind_init')` (outcome `ccall` is supplied by the
loaded bundle); on a throw, `callback(err)` and return, otherwise
`callback(null, binding)`. -/
def fireRuntimeReadyHook (p : AsmPending) (ccall : Except String Unit) :
    List AsmEvent × List CbCall :=
  let pre := if p.hasOrigHook then [AsmEvent.origHook] else []
  match ccall with
  | Except.error e => (pre ++ [AsmEvent.ccallNbindInit],
      [⟨some (InitErr.bootError e), none⟩])
  | Except.ok _ => (pre ++ [AsmEvent.ccallNbindInit],
      [⟨none, some p.binding⟩])

/-- `initNode` from nbind.ts lines 302-319: `require` the compiled addon; if
the result is falsy or not an object, `callback(new Error('Error loading
addon'))`; otherwise copy every key of the loaded module into `binding.lib`
and `callback(null, binding)`. -/
def initNode (env : Env) (binding : Binding) : Binding × List CbCall :=
  let p := match binding.binary with
    | some b => b.path.getD ""
    | none => ""
  match env.requireLoad p with
  | LoadResult.object entries =>
    let lib0 := binding.lib.getD {}
    let lib1 : LibObj :=
      { lib0 with
          entries := entries.foldl (fun a q => setKey a q.1 q.2) lib0.entries }
    let b2 : Binding := { binding with lib := some lib1 }
    (b2, [⟨none, some b2⟩])
  | _ => (binding, [⟨some (InitErr.loadError "Error loading addon"), none⟩])

/-- Body of the arrow function `init` passes to `find` (lines 248-262),
executed once per invocation of the find callback: on error forward it to the
init callback and return; on success set `binding.binary` and `binding.lib`
(caller-supplied preset or a fresh empty object) and branch on the binary
type. -/
def initCallbackBody (env : Env) (lib : Option LibObj) (binding : Binding) :
    FindEvent → Binding × List CbCall × Option AsmPending
  | FindEvent.failed e =>
    (binding, [⟨some (InitErr.findError e.message e.tries), none⟩], none)
  | FindEvent.found binary =>
    let b1 : Binding :=
      { binding with binary := some binary, lib := some (lib.getD {}) }
    if binary.type = ModType.emcc then
      let r := initAsm b1
      (r.1, [], some r.2)
    else
      let r := initNode env b1
      (r.1, r.2, none)

/-- `init` from nbind.ts lines 238-265: construct an empty `Binding`, run
`find` with the callback above (executed here for each of `find`'s callback
invocations, threading the binding state), and return the binding
synchronously.  The second component collects the init-callback invocations
made before `init` returns; the third is the pending runtime-ready wrapper
when the asm branch was taken (its callback invocations happen later, when
the runtime fires the hook). -/
def init (env : Env) (basePath : Option String) (lib : Option LibObj) :
    Binding × List CbCall × Option AsmPending :=
  let binding : Binding := {}
  (find env basePath).1.foldl
    (fun st ev =>
      let r := initCallbackBody env lib st.1 ev
      (r.1, st.2.1 ++ r.2.1,
        match st.2.2 with
        | some p => some p
        | none => r.2.2))
    (binding, [], none)

/-- All invocations of the completion callback for one call to `init`,
including — when the asm branch was taken — the invocation made when the
Emscripten runtime later fires the installed runtime-ready hook (the
runtime's contract is to fire it exactly once after a successful load; the
bundle's `ccall('nbind_init')` outcome is the `ccall` argument). -/
def initFullCalls (env : Env) (basePath : Option String) (lib : Option LibObj)
    (ccall : Except String Unit) : List CbCall :=
  match init env basePath lib with
  | (_, calls, some p) => calls ++ (fireRuntimeReadyHook p ccall).2
  | (_, calls, none) => calls

/-! ## Specification-side model of the locator

These definitions follow the wording of the specification (§4.1 and §8):
a flat, priority-ordered candidate sequence — registry order outer, template
order inner — scanned for the first successful resolution.  They exist to be
compared with the source-side `findCompiledModule` above. -/

/-- Specification-side list of the ten root-relative templates, in the
documented order: directly under root; under `build`; under `build/Debug`;
under `build/Release`; under `out/Debug`; under `Debug`; under
`out/Release`; under `Release`; under `build/default`; and under the
environment-overridable base (default `compiled`) / node version / platform /
arch. -/
def templateListSpec (env : Env) (root : String) (name : String) :
    List (List String) :=
  [ [root, name],
    [root, "build", name],
    [root, "build", "Debug", name],
    [root, "build", "Release", name],
    [root, "out", "Debug", name],
    [root, "Debug", name],
    [root, "out", "Release", name],
    [root, "Release", name],
    [root, "build", "default", name],
    [root,
      (match env.compiledDirEnv with
        | some s => if s = "" then "compiled" else s
        | none => "compiled"),
      env.nodeVersion,
      env.platform,
      env.arch,
      name] ]

/-- The full priority-ordered candidate cross product: for each registry
entry (outer), each template instantiated with that entry's canonical name
(inner), paired with the resolved candidate path. -/
def specCandidates (env : Env) (root : String) :
    List ModuleSpec → List (ModuleSpec × String)
  | [] => []
  | spec :: rest =>
    ((makeModulePathList env root spec.name).map fun parts =>
      (spec, env.resolve parts)) ++ specCandidates env root rest

/-- Specification-side scan: probe candidates in order, accumulate failed
attempts, stop at the first successful resolution with the resolved path
stored on the winning entry. -/
def locateScan (env : Env) :
    List String → List (ModuleSpec × String) → List String × Option ModuleSpec
  | tried, [] => (tried, none)
  | tried, (spec, cand) :: rest =>
    match env.requireResolve cand with
    | some p => (tried, some { spec with path := some p })
    | none => locateScan env (tried ++ [cand]) rest

/-- Specification-side locator (directory search only): scan the candidate
sequence; report the first hit, or the exhaustion error carrying every
attempted path. -/
def locateSpecModel (env : Env) (root : String)
    (registry : List ModuleSpec) : List FindEvent × Option ModuleSpec :=
  match locateScan env [] (specCandidates env root registry) with
  | (_, some s) => ([FindEvent.found s], some s)
  | (tried, none) =>
    ([FindEvent.failed ⟨findErrMessage tried, tried⟩], none)

/-! ## Heap-level model of the native-addon export copy

A value-level model cannot distinguish copying an object from aliasing it,
so the copy loop of `initNode` (nbind.ts lines 314-316,
`Object.keys(lib).forEach(key => binding.lib[key] = lib[key])`) is also
modelled one level lower: JavaScript objects live in a heap indexed by
references, and the loop mutates the destination object key by key while
reading from the source object. -/

/-- An object reference. -/
abbrev Ref := Nat

/-- A heap of JavaScript objects: each reference holds an ordered property
list. -/
def Heap : Type := Ref → List (String × Nat)

/-- Heap-level property assignment `h[r][k] = v`. -/
def heapSetKey (h : Heap) (r : Ref) (k : String) (v : Nat) : Heap :=
  fun r' => if r' = r then setKey (h r') k v else h r'

/-- Heap-level property deletion `delete h[r][k]`. -/
def heapDelKey (h : Heap) (r : Ref) (k : String) : Heap :=
  fun r' => if r' = r then (h r').filter (fun q => !(q.1 == k)) else h r'

/-- The copy loop of `initNode` at heap level: iterate the keys of the
loaded module object `src` and assign each, with its value read from `src`
at iteration time, onto the binding's exports object `dst`. -/
def copyKeysHeap (h : Heap) (dst src : Ref) : Heap :=
  ((h src).map Prod.fst).foldl
    (fun hh k => heapSetKey hh dst k ((getKey (hh src) k).getD 0)) h

/-! ## Concrete environments used as fixtures -/

/-- A root whose directory holds artifacts at both `build/Debug` and
`build/Release` for the `.node` registry entry; everything else is absent. -/
def envBoth : Env :=
  { cwd := "/proj"
    extname := fun _ => ""
    resolve := fun parts => String.intercalate "/" parts
    requireResolve := fun p =>
      if p = "/proj/build/Debug/nbind.node" ∨
          p = "/proj/build/Release/nbind.node"
      then some p else none
    requireLoad := fun _ => LoadResult.falsy
    compiledDirEnv := none
    nodeVersion := "v6.5.0"
    platform := "linux"
    arch := "x64" }

/-- An environment in which no path at all resolves. -/
def envAllFail : Env :=
  { cwd := "/w"
    extname := fun _ => ""
    resolve := fun parts => String.intercalate "/" parts
    requireResolve := fun _ => none
    requireLoad := fun _ => LoadResult.falsy
    compiledDirEnv := none
    nodeVersion := "v6.5.0"
    platform := "linux"
    arch := "x64" }

/-- An environment holding one native addon directly under `/w`, loading to
an object with two exported keys. -/
def envNode : Env :=
  { cwd := "/w"
    extname := fun _ => ""
    resolve := fun parts => String.intercalate "/" parts
    requireResolve := fun p => if p = "/w/nbind.node" then some p else none
    requireLoad := fun p =>
      if p = "/w/nbind.node" then LoadResult.object [("f", 7), ("g", 8)]
      else LoadResult.falsy
    compiledDirEnv := none
    nodeVersion := "v6.5.0"
    platform := "linux"
    arch := "x64" }

/-- An environment where the caller hands the artifact path itself as root
(fast path): `/w/a.node` resolves as a literal path. -/
def envFast : Env :=
  { cwd := "/w"
    extname := fun s => if s = "/w/a.node" then ".node" else ""
    resolve := fun parts => String.intercalate "/" parts
    requireResolve := fun p => if p = "/w/a.node" then some p else none
    requireLoad := fun _ => LoadResult.falsy
    compiledDirEnv := none
    nodeVersion := "v6.5.0"
    platform := "linux"
    arch := "x64" }

/-- The `.node` registry entry with its `path` field set to `p`, as the
locator returns it on success. -/
def nodeSpecAt (p : String) : ModuleSpec :=
  { type := ModType.node, ext := ".node", name := "nbind.node",
    path := some p }

/-- The `.js` registry entry with its `path` field set to `p`. -/
def emccSpecAt (p : String) : ModuleSpec :=
  { type := ModType.emcc, ext := ".js", name := "nbind.js",
    path := some p }

/-- A heap with the loaded module object at reference 0 and nothing else. -/
def heapW : Heap :=
  fun r => if r = 0 then [("a", 1), ("b", 2)] else []

/-! ## Helper lemmas about the locator loops -/

/-- Registry entries whose extension does not match are skipped by the fast
path. -/
theorem fastPathLoop_skip (env : Env) (root : String) (pre rest : List ModuleSpec)
    (acc : List String) (hpre : ∀ s ∈ pre, env.extname root ≠ s.ext) :
    fastPathLoop env root (pre ++ rest) acc = fastPathLoop env root rest acc := by
  induction pre generalizing acc with
  | nil => simp
  | cons s pre ih =>
    have hs : env.extname root ≠ s.ext := hpre s (by simp)
    rw [List.cons_append]
    rw [show fastPathLoop env root (s :: (pre ++ rest)) acc
        = fastPathLoop env root (pre ++ rest) acc from by simp [fastPathLoop, hs]]
    exact ih acc (fun t ht => hpre t (by simp [ht]))

/-- When no registry entry's extension matches, the fast path does nothing. -/
theorem fastPathLoop_no_match (env : Env) (root : String)
    (specs : List ModuleSpec) (acc : List String)
    (h : ∀ s ∈ specs, env.extname root ≠ s.ext) :
    fastPathLoop env root specs acc = (acc, none) := by
  have := fastPathLoop_skip env root specs [] acc h
  simpa [fastPathLoop] using this

/-- Scanning a concatenation scans the first part, then the second from the
accumulated attempt list. -/
theorem locateScan_append (env : Env) (acc : List String)
    (l1 l2 : List (ModuleSpec × String)) :
    locateScan env acc (l1 ++ l2) =
      match locateScan env acc l1 with
      | (a, some s) => (a, some s)
      | (a, none) => locateScan env a l2 := by
  induction l1 generalizing acc with
  | nil => simp [locateScan]
  | cons c rest ih =>
    obtain ⟨spec, cand⟩ := c
    cases h : env.requireResolve cand with
    | some p => simp [locateScan, h]
    | none => simp [locateScan, h, ih]

/-- The inner template loop is the scan of that entry's candidate list. -/
theorem dirLoopInner_eq_scan (env : Env) (spec : ModuleSpec)
    (parts : List (List String)) (acc : List String) :
    dirLoopInner env spec parts acc =
      locateScan env acc (parts.map fun p => (spec, env.resolve p)) := by
  induction parts generalizing acc with
  | nil => simp [dirLoopInner, locateScan]
  | cons p rest ih =>
    cases h : env.requireResolve (env.resolve p) with
    | some q => simp [dirLoopInner, locateScan, h]
    | none => simp [dirLoopInner, locateScan, h, ih]

/-- The nested registry/template loops equal one flat scan of the
priority-ordered candidate cross product. -/
theorem dirLoop_eq_scan (env : Env) (root : String)
    (specs : List ModuleSpec) (acc : List String) :
    dirLoop env root specs acc =
      locateScan env acc (specCandidates env root specs) := by
  induction specs generalizing acc with
  | nil => simp [dirLoop, locateScan, specCandidates]
  | cons spec rest ih =>
    rw [show specCandidates env root (spec :: rest)
        = ((makeModulePathList env root spec.name).map fun parts =>
            (spec, env.resolve parts)) ++ specCandidates env root rest
        from rfl]
    rw [locateScan_append]
    rw [show dirLoop env root (spec :: rest) acc
        = (match dirLoopInner env spec (makeModulePathList env root spec.name) acc with
           | (a, some s) => (a, some s)
           | (a, none) => dirLoop env root rest a) from rfl]
    rw [dirLoopInner_eq_scan]
    rcases locateScan env acc
        ((makeModulePathList env root spec.name).map fun p => (spec, env.resolve p)) with
      ⟨a, o⟩
    cases o with
    | some s => rfl
    | none => simpa using ih a

/-- A scan in which every candidate fails to resolve collects every
candidate path, in order. -/
theorem locateScan_all_fail (env : Env) (acc : List String)
    (l : List (ModuleSpec × String))
    (h : ∀ c ∈ l, env.requireResolve c.2 = none) :
    locateScan env acc l = (acc ++ l.map Prod.snd, none) := by
  induction l generalizing acc with
  | nil => simp [locateScan]
  | cons c rest ih =>
    obtain ⟨spec, cand⟩ := c
    have hc : env.requireResolve cand = none := h (spec, cand) (by simp)
    rw [show locateScan env acc ((spec, cand) :: rest)
        = locateScan env (acc ++ [cand]) rest from by simp [locateScan, hc]]
    rw [ih _ (fun d hd => h d (by simp [hd]))]
    simp

/-- Evaluating `initNode` once the binding's `binary` field is known. -/
theorem initNode_eval (env : Env) (binding : Binding) (spec : ModuleSpec)
    (hbin : binding.binary = some spec) :
    initNode env binding =
      match env.requireLoad (spec.path.getD "") with
      | LoadResult.object entries =>
        (let lib0 := binding.lib.getD {}
         let lib1 : LibObj :=
           { lib0 with
               entries := entries.foldl (fun a q => setKey a q.1 q.2) lib0.entries }
         let b2 : Binding := { binding with lib := some lib1 }
         (b2, [⟨none, some b2⟩]))
      | _ =>
        (binding, [⟨some (InitErr.loadError "Error loading addon"), none⟩]) := by
  unfold initNode
  rw [hbin]

/-- The locator's callback is invoked exactly once per call. -/
theorem findCompiledModule_one_event (env : Env) (root : String)
    (specs : List ModuleSpec) :
    ∃ e, (findCompiledModule env root specs).1 = [e] := by
  unfold findCompiledModule
  rcases h : fastPathLoop env root specs [] with ⟨acc, o⟩
  cases o with
  | some s => exact ⟨FindEvent.found s, rfl⟩
  | none =>
    show ∃ e, (dirPhase env root specs acc).1 = [e]
    unfold dirPhase
    rcases h2 : dirLoop env root specs acc with ⟨acc2, o2⟩
    cases o2 with
    | some s => exact ⟨FindEvent.found s, rfl⟩
    | none => exact ⟨FindEvent.failed ⟨findErrMessage acc2, acc2⟩, rfl⟩

/-! ## Helper lemmas about property assignment and the copy loop -/

theorem getKey_setKey_self (k : String) (v : Nat) :
    ∀ m : List (String × Nat), getKey (setKey m k v) k = some v
  | [] => by simp [setKey, getKey]
  | q :: rest => by
    by_cases hq : q.1 = k
    · simp [setKey, getKey, hq]
    · simp [setKey, getKey, hq, getKey_setKey_self k v rest]

theorem getKey_setKey_ne (k k' : String) (v : Nat) (h : k' ≠ k) :
    ∀ m : List (String × Nat), getKey (setKey m k v) k' = getKey m k'
  | [] => by
    have hkk : ¬(k = k') := fun hh => h hh.symm
    simp [setKey, getKey, hkk]
  | q :: rest => by
    have hkk : ¬(k = k') := fun hh => h hh.symm
    by_cases hq : q.1 = k
    · have hq' : ¬(q.1 = k') := by rw [hq]; exact hkk
      simp [setKey, getKey, hq, hkk, hq']
    · simp [setKey, getKey, hq, getKey_setKey_ne k k' v h rest]

/-- Keys not exported by the loaded module are untouched by the copy loop. -/
theorem copyFold_not_mem (k : String) :
    ∀ (ms : List (String × Nat)) (base : List (String × Nat)),
      k ∉ ms.map Prod.fst →
      getKey (ms.foldl (fun a q => setKey a q.1 q.2) base) k = getKey base k
  | [], base, _ => rfl
  | q :: rest, base, h => by
    have hk : k ∉ rest.map Prod.fst := by
      intro hh
      exact h (by simp [hh])
    have hq : k ≠ q.1 := by
      intro hh
      exact h (by simp [hh])
    rw [List.foldl_cons, copyFold_not_mem k rest _ hk,
      getKey_setKey_ne q.1 k q.2 hq base]

/-- For a key the loaded module does export (module keys are unique, as JS
object keys are), the copy loop installs the module's value. -/
theorem copyFold_mem (k : String) :
    ∀ (ms : List (String × Nat)) (base : List (String × Nat)),
      (ms.map Prod.fst).Nodup →
      k ∈ ms.map Prod.fst →
      getKey (ms.foldl (fun a q => setKey a q.1 q.2) base) k = getKey ms k
  | [], base, _, h => by simp at h
  | q :: rest, base, hnd, h => by
    rw [List.map_cons] at hnd h
    rw [List.mem_cons] at h
    rw [List.foldl_cons]
    by_cases hq : q.1 = k
    · have hk : k ∉ rest.map Prod.fst := by
        have := (List.nodup_cons.mp hnd).1
        rw [hq] at this
        exact this
      rw [copyFold_not_mem k rest _ hk, hq, getKey_setKey_self]
      simp [getKey, hq]
    · have hk : k ∈ rest.map Prod.fst := by
        rcases h with h1 | h1
        · exact absurd h1.symm hq
        · exact h1
      rw [copyFold_mem k rest _ (List.nodup_cons.mp hnd).2 hk]
      simp [getKey, hq]

/-- A key exported by the module always has a value there. -/
theorem getKey_isSome_of_mem (k : String) :
    ∀ ms : List (String × Nat), k ∈ ms.map Prod.fst → (getKey ms k).isSome
  | [], h => by simp at h
  | q :: rest, h => by
    rw [List.map_cons, List.mem_cons] at h
    by_cases hq : q.1 = k
    · simp [getKey, hq]
    · have hk : k ∈ rest.map Prod.fst := by
        rcases h with h1 | h1
        · exact absurd h1.symm hq
        · exact h1
      simpa [getKey, hq] using getKey_isSome_of_mem k rest hk

/-! ## Helper lemmas about the heap-level copy -/

/-- A fold of assignments targeting `dst` leaves every other reference
untouched. -/
theorem foldSetKey_other (dst r : Ref) (hr : r ≠ dst)
    (g : Heap → String → Nat) :
    ∀ (ks : List String) (h : Heap),
      (ks.foldl (fun hh k => heapSetKey hh dst k (g hh k)) h) r = h r
  | [], _ => rfl
  | k :: rest, h => by
    rw [List.foldl_cons, foldSetKey_other dst r hr g rest]
    show (if r = dst then _ else h r) = h r
    simp [hr]

/-- While the copy loop runs, the source object never changes, so every value
it reads comes from the original source object. -/
theorem foldSetKey_read_const (dst src : Ref) (hne : dst ≠ src) :
    ∀ (ks : List String) (h : Heap),
      ks.foldl (fun hh k => heapSetKey hh dst k ((getKey (hh src) k).getD 0)) h
        = ks.foldl (fun hh k => heapSetKey hh dst k ((getKey (h src) k).getD 0)) h
  | [], _ => rfl
  | k :: rest, h => by
    rw [List.foldl_cons, List.foldl_cons,
      foldSetKey_read_const dst src hne rest]
    have hsd : ¬(src = dst) := fun hh => hne hh.symm
    have hsrc : (heapSetKey h dst k ((getKey (h src) k).getD 0)) src = h src := by
      show (if src = dst then _ else h src) = h src
      simp [hsd]
    rw [hsrc]

/-- The destination object after the fold of heap assignments is the fold of
list assignments on its initial property list. -/
theorem foldSetKey_dst (dst : Ref) (g : String → Nat) :
    ∀ (ks : List String) (h : Heap),
      (ks.foldl (fun hh k => heapSetKey hh dst k (g k)) h) dst
        = ks.foldl (fun m k => setKey m k (g k)) (h dst)
  | [], _ => rfl
  | k :: rest, h => by
    rw [List.foldl_cons, List.foldl_cons, foldSetKey_dst dst g rest]
    have : (heapSetKey h dst k (g k)) dst = setKey (h dst) k (g k) := by
      show (if dst = dst then _ else _) = _
      simp
    rw [this]

theorem getKey_eq_none_of_not_mem (k : String) :
    ∀ m : List (String × Nat), k ∉ m.map Prod.fst → getKey m k = none
  | [], _ => rfl
  | q :: rest, h => by
    have hq : ¬(q.1 = k) := fun hh => h (by simp [hh])
    have hk : k ∉ rest.map Prod.fst := fun hh => h (by simp [hh])
    simp [getKey, hq, getKey_eq_none_of_not_mem k rest hk]

theorem setKey_absent (k : String) (v : Nat) :
    ∀ m : List (String × Nat), getKey m k = none → setKey m k v = m ++ [(k, v)]
  | [], _ => rfl
  | q :: rest, h => by
    by_cases hq : q.1 = k
    · simp [getKey, hq] at h
    · have : getKey rest k = none := by simpa [getKey, hq] using h
      simp [setKey, hq, setKey_absent k v rest this]

/-- Reading a member of a unique-key list gives its value. -/
theorem getKey_of_mem (k : String) (v : Nat) :
    ∀ ms : List (String × Nat), (ms.map Prod.fst).Nodup → (k, v) ∈ ms →
      getKey ms k = some v
  | [], _, h => by simp at h
  | q :: rest, hnd, h => by
    rw [List.map_cons] at hnd
    rw [List.mem_cons] at h
    rcases h with h1 | h1
    · simp [getKey, h1.symm]
    · have hq : ¬(q.1 = k) := by
        intro hh
        have hmem : k ∈ rest.map Prod.fst :=
          List.mem_map.mpr ⟨(k, v), h1, rfl⟩
        have hnotin := (List.nodup_cons.mp hnd).1
        exact hnotin (hh ▸ hmem)
      rw [getKey, if_neg hq]
      exact getKey_of_mem k v rest (List.nodup_cons.mp hnd).2 h1

/-- Replaying the module's own (key, value) pairs by assignment onto a list
that contains none of those keys appends exactly the module list. -/
theorem setKeyFold_build (g : String → Nat) :
    ∀ ms : List (String × Nat), (ms.map Prod.fst).Nodup →
      (∀ q ∈ ms, g q.1 = q.2) →
      ∀ pre : List (String × Nat), (∀ k ∈ ms.map Prod.fst, getKey pre k = none) →
        (ms.map Prod.fst).foldl (fun m k => setKey m k (g k)) pre = pre ++ ms
  | [], _, _, pre, _ => by simp
  | q :: rest, hnd, hg, pre, hpre => by
    rw [List.map_cons] at hnd hpre
    have h1 : setKey pre q.1 (g q.1) = pre ++ [(q.1, q.2)] := by
      rw [hg q (by simp), setKey_absent q.1 q.2 pre (hpre q.1 (by simp))]
    have hq1 : q.1 ∉ rest.map Prod.fst := (List.nodup_cons.mp hnd).1
    have hpre' : ∀ k ∈ rest.map Prod.fst,
        getKey (pre ++ [(q.1, q.2)]) k = none := by
      intro k hk
      have hkq : k ≠ q.1 := fun hh => hq1 (hh ▸ hk)
      have hnotin : k ∉ (pre ++ [(q.1, q.2)]).map Prod.fst := by
        rw [List.map_append, List.mem_append]
        rintro (h2 | h2)
        · have h3 := getKey_isSome_of_mem k pre h2
          rw [hpre k (List.mem_cons.mpr (Or.inr hk))] at h3
          simp at h3
        · exact hkq (by simpa using h2)
      exact getKey_eq_none_of_not_mem k _ hnotin
    calc ((q :: rest).map Prod.fst).foldl (fun m k => setKey m k (g k)) pre
        = (rest.map Prod.fst).foldl (fun m k => setKey m k (g k))
            (setKey pre q.1 (g q.1)) := by simp
      _ = (rest.map Prod.fst).foldl (fun m k => setKey m k (g k))
            (pre ++ [(q.1, q.2)]) := by rw [h1]
      _ = (pre ++ [(q.1, q.2)]) ++ rest :=
            setKeyFold_build g rest (List.nodup_cons.mp hnd).2
              (fun d hd => hg d (by simp [hd])) _ hpre'
      _ = pre ++ q :: rest := by simp

/-! ## Claim theorems -/

/-- Claim C3: the directory search probes candidates with registry order as
the outer loop and, per registry entry, exactly the ten documented templates
in the documented inner order; it returns the first candidate that resolves
with the resolved path stored on the winning entry, and probes no later
registry entry or template after that first success.  Formally: the
source-side template list equals the specification-side one, and (when the
fast path does not apply) `findCompiledModule` equals the specification-side
flat first-success scan of the priority-ordered candidate sequence. -/
theorem dir_search_in_template_order (env : Env) (root : String)
    (registry : List ModuleSpec)
    (hfast : ∀ s ∈ registry, env.extname root ≠ s.ext) :
    (∀ name, makeModulePathList env root name = templateListSpec env root name) ∧
    findCompiledModule env root registry = locateSpecModel env root registry := by
  constructor
  · intro name
    rfl
  · unfold findCompiledModule
    rw [fastPathLoop_no_match env root registry [] hfast]
    show dirPhase env root registry [] = locateSpecModel env root registry
    unfold dirPhase locateSpecModel
    rw [dirLoop_eq_scan]

theorem dir_search_in_template_order_witness :
    (∀ name, makeModulePathList envAllFail "/w" name
      = templateListSpec envAllFail "/w" name) ∧
    findCompiledModule envAllFail "/w" defaultSpecList
      = locateSpecModel envAllFail "/w" defaultSpecList :=
  dir_search_in_template_order envAllFail "/w" defaultSpecList (by decide)

/-- Claim C4: when no candidate resolves, `find` fails with a single error
whose attempted-path list is, in the order tried, the fast-path attempt on
the root itself (present exactly when the root's extension matches a
registry entry's extension) followed by the 20 directory-search candidates
(10 templates × 2 registry entries), and that list is carried both inside
the human-readable message and as the structured `tries` field. -/
theorem find_exhaustion_tries (env : Env) (root : String) (hroot : ¬root = "")
    (hrootres : env.requireResolve root = none)
    (hall : ∀ c ∈ specCandidates env root defaultSpecList,
      env.requireResolve c.2 = none) :
    ∃ tries,
      find env (some root)
        = ([FindEvent.failed ⟨findErrMessage tries, tries⟩], none) ∧
      tries = (if env.extname root = ".node" ∨ env.extname root = ".js"
               then [root] else [])
        ++ (specCandidates env root defaultSpecList).map Prod.snd ∧
      ((specCandidates env root defaultSpecList).map Prod.snd).length = 20 ∧
      findErrMessage tries
        = "Could not locate the bindings file. Tried:\n"
          ++ String.intercalate "\n" tries := by
  have hlen : ((specCandidates env root defaultSpecList).map Prod.snd).length
      = 20 := by
    simp [specCandidates, defaultSpecList, makeModulePathList]
  have hfastres : fastPathLoop env root defaultSpecList []
      = ((if env.extname root = ".node" ∨ env.extname root = ".js"
          then [root] else []), none) := by
    by_cases h1 : env.extname root = ".node"
    · have h2 : ¬(env.extname root = ".js") := by
        rw [h1]
        decide
      simp [fastPathLoop, defaultSpecList, h1, h2, hrootres]
    · by_cases h2 : env.extname root = ".js"
      · simp [fastPathLoop, defaultSpecList, h1, h2, hrootres]
      · simp [fastPathLoop, defaultSpecList, h1, h2]
  have hfind : find env (some root)
      = findCompiledModule env root defaultSpecList := by
    simp [find, hroot]
  refine ⟨_, ?_, rfl, hlen, rfl⟩
  rw [hfind]
  unfold findCompiledModule
  rw [hfastres]
  show dirPhase env root defaultSpecList _ = _
  unfold dirPhase
  rw [dirLoop_eq_scan, locateScan_all_fail env _ _ hall]

theorem find_exhaustion_tries_witness :
    ∃ tries,
      find envAllFail (some "/w")
        = ([FindEvent.failed ⟨findErrMessage tries, tries⟩], none) ∧
      tries = (if envAllFail.extname "/w" = ".node"
                ∨ envAllFail.extname "/w" = ".js"
               then ["/w"] else [])
        ++ (specCandidates envAllFail "/w" defaultSpecList).map Prod.snd ∧
      ((specCandidates envAllFail "/w" defaultSpecList).map Prod.snd).length
        = 20 ∧
      findErrMessage tries
        = "Could not locate the bindings file. Tried:\n"
          ++ String.intercalate "\n" tries :=
  find_exhaustion_tries envAllFail "/w" (by decide) rfl (fun _ _ => rfl)

/-- Claim C5: when the root's extension equals the extension of a registry
entry (the first matching entry), the locator first tries the root itself as
a literal path: on success it immediately returns that entry with the
resolution of the root as its path, with no directory search; on failure the
root is recorded as the attempted path and the locator proceeds to the full
directory search instead of failing. -/
theorem fast_path_literal_check (env : Env) (root : String)
    (pre post : List ModuleSpec) (spec : ModuleSpec)
    (hpre : ∀ s ∈ pre, env.extname root ≠ s.ext)
    (hmatch : env.extname root = spec.ext) :
    (∀ p, env.requireResolve root = some p →
      findCompiledModule env root (pre ++ spec :: post)
        = ([FindEvent.found { spec with path := some p }],
           some { spec with path := some p })) ∧
    (env.requireResolve root = none →
      (∀ s ∈ post, env.extname root ≠ s.ext) →
      findCompiledModule env root (pre ++ spec :: post)
        = dirPhase env root (pre ++ spec :: post) [root]) := by
  constructor
  · intro p hp
    unfold findCompiledModule
    rw [fastPathLoop_skip env root pre (spec :: post) [] hpre]
    simp [fastPathLoop, hmatch, hp]
  · intro hnone hpost
    unfold findCompiledModule
    rw [fastPathLoop_skip env root pre (spec :: post) [] hpre]
    rw [show fastPathLoop env root (spec :: post) []
        = fastPathLoop env root post [root] from by
      simp [fastPathLoop, hmatch, hnone]]
    rw [fastPathLoop_no_match env root post [root] hpost]

theorem fast_path_literal_check_witness :
    findCompiledModule envFast "/w/a.node" defaultSpecList
      = ([FindEvent.found (nodeSpecAt "/w/a.node")],
         some (nodeSpecAt "/w/a.node")) :=
  (fast_path_literal_check envFast "/w/a.node" []
      [{ type := ModType.emcc, ext := ".js", name := "nbind.js" }]
      { type := ModType.node, ext := ".node", name := "nbind.node" }
      (by simp) (by decide)).1 "/w/a.node" (by decide)

/-- Claim C1 (counterexample): with artifacts present at both
`build/Release` and `build/Debug` for the `.node` registry entry, `find`
returns the `build/Debug` candidate, not the `build/Release` one the claim
asserts: in the source's template order `build/Debug` precedes
`build/Release`. -/
theorem release_debug_priority_counterexample :
    envBoth.requireResolve "/proj/build/Release/nbind.node"
      = some "/proj/build/Release/nbind.node" ∧
    envBoth.requireResolve "/proj/build/Debug/nbind.node"
      = some "/proj/build/Debug/nbind.node" ∧
    (find envBoth (some "/proj")).2
      = some (nodeSpecAt "/proj/build/Debug/nbind.node") ∧
    ¬(find envBoth (some "/proj")).2
      = some (nodeSpecAt "/proj/build/Release/nbind.node") := by
  refine ⟨by decide, by decide, by decide, by decide⟩

/-- Claim C1 (amended): when both `build/Debug/<canonicalName>` and
`build/Release/<canonicalName>` resolve for the same registry entry (and no
earlier candidate does), `find` returns the `build/Debug` candidate, because
`build/Debug` is earlier in template order than `build/Release`. -/
theorem locate_prefers_build_debug (env : Env) (root : String)
    (hroot : ¬root = "")
    (hfast : ∀ s ∈ defaultSpecList, env.extname root ≠ s.ext)
    (h0 : env.requireResolve (env.resolve [root, "nbind.node"]) = none)
    (h1 : env.requireResolve (env.resolve [root, "build", "nbind.node"]) = none)
    (p : String)
    (hdbg : env.requireResolve (env.resolve [root, "build", "Debug", "nbind.node"])
      = some p)
    (q : String)
    (_hrel : env.requireResolve (env.resolve [root, "build", "Release", "nbind.node"])
      = some q) :
    (find env (some root)).2 = some (nodeSpecAt p) := by
  have hfind : find env (some root)
      = findCompiledModule env root defaultSpecList := by
    simp [find, hroot]
  rw [hfind]
  unfold findCompiledModule
  rw [fastPathLoop_no_match env root defaultSpecList [] hfast]
  show (dirPhase env root defaultSpecList []).2 = _
  unfold dirPhase
  rw [dirLoop_eq_scan]
  simp [specCandidates, defaultSpecList, makeModulePathList, locateScan,
    h0, h1, hdbg, nodeSpecAt]

theorem locate_prefers_build_debug_witness :
    (find envBoth (some "/proj")).2
      = some (nodeSpecAt "/proj/build/Debug/nbind.node") :=
  locate_prefers_build_debug envBoth "/proj" (by decide) (by decide)
    (by decide) (by decide) "/proj/build/Debug/nbind.node" (by decide)
    "/proj/build/Release/nbind.node" (by decide)

/-- Claim C2: for every call to `init` — locate-failure path, native-addon
branch, or asm branch (whose completion arrives when the runtime fires the
installed ready hook, which the runtime contract fires exactly once after a
load) — the completion callback is invoked exactly once, either with an
error and no binding, or with no error and a binding whose `binary` and
`lib` fields are both populated; never both outcomes and never zero
invocations. -/
theorem init_callback_exactly_once (env : Env) (basePath : Option String)
    (lib : Option LibObj) (ccall : Except String Unit) :
    ∃ c, initFullCalls env basePath lib ccall = [c] ∧
      ((∃ e, c.err = some e ∧ c.result = none) ∨
       (c.err = none ∧ ∃ b, c.result = some b ∧
         b.binary.isSome = true ∧ b.lib.isSome = true)) := by
  obtain ⟨ev, hev⟩ := findCompiledModule_one_event env
    (match basePath with
      | some s => if s = "" then env.cwd else s
      | none => env.cwd) defaultSpecList
  have h1 : (find env basePath).1 = [ev] := hev
  have h2 : init env basePath lib = initCallbackBody env lib {} ev := by
    unfold init
    rw [h1]
    rfl
  cases ev with
  | failed e =>
    refine ⟨⟨some (InitErr.findError e.message e.tries), none⟩, ?_,
      Or.inl ⟨_, rfl, rfl⟩⟩
    unfold initFullCalls
    rw [h2]
    rfl
  | found binary =>
    by_cases htype : binary.type = ModType.emcc
    · have h3 : initCallbackBody env lib {} (FindEvent.found binary)
          = ((initAsm ⟨some binary, some (lib.getD {})⟩).1, [],
             some (initAsm ⟨some binary, some (lib.getD {})⟩).2) := by
        simp [initCallbackBody, htype]
      cases ccall with
      | error e =>
        refine ⟨⟨some (InitErr.bootError e), none⟩, ?_, Or.inl ⟨_, rfl, rfl⟩⟩
        unfold initFullCalls
        rw [h2, h3]
        rfl
      | ok u =>
        refine ⟨⟨none, some (initAsm ⟨some binary, some (lib.getD {})⟩).1⟩, ?_,
          Or.inr ⟨rfl, (initAsm ⟨some binary, some (lib.getD {})⟩).1,
            rfl, rfl, rfl⟩⟩
        unfold initFullCalls
        rw [h2, h3]
        rfl
    · have h3 : initCallbackBody env lib {} (FindEvent.found binary)
          = ((initNode env ⟨some binary, some (lib.getD {})⟩).1,
             (initNode env ⟨some binary, some (lib.getD {})⟩).2, none) := by
        simp [initCallbackBody, htype]
      rw [initNode_eval env ⟨some binary, some (lib.getD {})⟩ binary rfl] at h3
      cases hload : env.requireLoad (binary.path.getD "") with
      | object entries =>
        rw [hload] at h3
        refine ⟨⟨none, some ⟨some binary,
            some { (lib.getD {}) with
              entries := entries.foldl (fun a q => setKey a q.1 q.2)
                (lib.getD {}).entries }⟩⟩, ?_,
          Or.inr ⟨rfl, _, rfl, rfl, rfl⟩⟩
        unfold initFullCalls
        rw [h2, h3]
        rfl
      | falsy =>
        rw [hload] at h3
        refine ⟨⟨some (InitErr.loadError "Error loading addon"), none⟩, ?_,
          Or.inl ⟨_, rfl, rfl⟩⟩
        unfold initFullCalls
        rw [h2, h3]
      | nonObject =>
        rw [hload] at h3
        refine ⟨⟨some (InitErr.loadError "Error loading addon"), none⟩, ?_,
          Or.inl ⟨_, rfl, rfl⟩⟩
        unfold initFullCalls
        rw [h2, h3]

/-- Claim C6: on the native-addon branch with a caller-supplied preset
exports object, every preset key the loaded module does not export keeps its
preset value in the final binding's exports, every key the loaded module
exports appears in the final exports, and on a collision the loaded module's
value wins over the preset value. -/
theorem native_addon_merge (env : Env) (binding : Binding)
    (spec : ModuleSpec) (preset : LibObj)
    (hbin : binding.binary = some spec) (hlib : binding.lib = some preset)
    (ms : List (String × Nat))
    (hload : env.requireLoad (spec.path.getD "") = LoadResult.object ms)
    (hnd : (ms.map Prod.fst).Nodup) :
    ∃ final : LibObj, (initNode env binding).1.lib = some final ∧
      final.entries = ms.foldl (fun a q => setKey a q.1 q.2) preset.entries ∧
      (∀ k, k ∉ ms.map Prod.fst →
        getKey final.entries k = getKey preset.entries k) ∧
      (∀ k, k ∈ ms.map Prod.fst → getKey final.entries k = getKey ms k) ∧
      (∀ k, k ∈ ms.map Prod.fst → (getKey final.entries k).isSome = true) := by
  rw [initNode_eval env binding spec hbin, hload, hlib]
  simp only [Option.getD_some]
  refine ⟨_, rfl, rfl, ?_, ?_, ?_⟩
  · intro k hk
    exact copyFold_not_mem k ms preset.entries hk
  · intro k hk
    exact copyFold_mem k ms preset.entries hnd hk
  · intro k hk
    rw [copyFold_mem k ms preset.entries hnd hk]
    exact getKey_isSome_of_mem k ms hk

theorem native_addon_merge_witness :
    ∃ final : LibObj,
      (initNode envNode
        ⟨some (nodeSpecAt "/w/nbind.node"),
         some { entries := [("f", 1), ("c", 3)] }⟩).1.lib = some final ∧
      final.entries = [("f", 7), ("g", 8)].foldl
        (fun a q => setKey a q.1 q.2) [("f", 1), ("c", 3)] ∧
      (∀ k, k ∉ [("f", 7), ("g", 8)].map Prod.fst →
        getKey final.entries k = getKey [("f", 1), ("c", 3)] k) ∧
      (∀ k, k ∈ [("f", 7), ("g", 8)].map Prod.fst →
        getKey final.entries k = getKey [("f", 7), ("g", 8)] k) ∧
      (∀ k, k ∈ [("f", 7), ("g", 8)].map Prod.fst →
        (getKey final.entries k).isSome = true) :=
  native_addon_merge envNode
    ⟨some (nodeSpecAt "/w/nbind.node"), some { entries := [("f", 1), ("c", 3)] }⟩
    (nodeSpecAt "/w/nbind.node") { entries := [("f", 1), ("c", 3)] }
    rfl rfl [("f", 7), ("g", 8)] rfl (by decide)

/-- Claim C7: the copy loop of native-addon initialization produces an
exports object distinct from the loaded module's exports: at heap level,
copying from `src` onto a distinct reference `dst` leaves `src` unchanged
and makes `dst`'s property list equal to the module's (starting from the
empty object with unique module keys), and afterwards adding, changing or
deleting a top-level key of either object leaves the other unchanged. -/
theorem addon_exports_not_aliased (h : Heap) (dst src : Ref)
    (hne : dst ≠ src) :
    (copyKeysHeap h dst src) src = h src ∧
    (h dst = [] → ((h src).map Prod.fst).Nodup →
      (copyKeysHeap h dst src) dst = h src) ∧
    (∀ k v, heapSetKey (copyKeysHeap h dst src) dst k v src
      = (copyKeysHeap h dst src) src) ∧
    (∀ k, heapDelKey (copyKeysHeap h dst src) dst k src
      = (copyKeysHeap h dst src) src) ∧
    (∀ k v, heapSetKey (copyKeysHeap h dst src) src k v dst
      = (copyKeysHeap h dst src) dst) ∧
    (∀ k, heapDelKey (copyKeysHeap h dst src) src k dst
      = (copyKeysHeap h dst src) dst) := by
  have hsd : ¬(src = dst) := fun hh => hne hh.symm
  have hds : ¬(dst = src) := hne
  refine ⟨?_, ?_, ?_, ?_, ?_, ?_⟩
  · exact foldSetKey_other dst src hsd (fun hh k => (getKey (hh src) k).getD 0)
      ((h src).map Prod.fst) h
  · intro hdst hnd
    unfold copyKeysHeap
    rw [foldSetKey_read_const dst src hne,
      foldSetKey_dst dst (fun k => (getKey (h src) k).getD 0), hdst]
    rw [setKeyFold_build (fun k => (getKey (h src) k).getD 0) (h src) hnd
      (fun q hq => by
        show (getKey (h src) q.1).getD 0 = q.2
        rw [getKey_of_mem q.1 q.2 (h src) hnd hq]
        rfl)
      [] (fun k _ => rfl)]
    simp
  · intro k v
    show (if src = dst then _ else _) = _
    simp [hsd]
  · intro k
    show (if src = dst then _ else _) = _
    simp [hsd]
  · intro k v
    show (if dst = src then _ else _) = _
    simp [hds]
  · intro k
    show (if dst = src then _ else _) = _
    simp [hds]

theorem addon_exports_not_aliased_witness :
    (copyKeysHeap heapW 1 0) 0 = heapW 0 ∧
    (heapW 1 = [] → ((heapW 0).map Prod.fst).Nodup →
      (copyKeysHeap heapW 1 0) 1 = heapW 0) ∧
    (∀ k v, heapSetKey (copyKeysHeap heapW 1 0) 1 k v 0
      = (copyKeysHeap heapW 1 0) 0) ∧
    (∀ k, heapDelKey (copyKeysHeap heapW 1 0) 1 k 0
      = (copyKeysHeap heapW 1 0) 0) ∧
    (∀ k v, heapSetKey (copyKeysHeap heapW 1 0) 0 k v 1
      = (copyKeysHeap heapW 1 0) 1) ∧
    (∀ k, heapDelKey (copyKeysHeap heapW 1 0) 0 k 1
      = (copyKeysHeap heapW 1 0) 1) :=
  addon_exports_not_aliased heapW 1 0 (by decide)

/-- Claim C8: when the runtime-ready hook installed by the asm branch fires,
any caller-supplied runtime-ready hook is invoked first and then the fixed
bootstrap entry point (`ccall('nbind_init')`); if the bootstrap invocation
raises, the callback receives that error and success is never reported; if
it succeeds, the callback receives the completed binding. -/
theorem asm_bootstrap_failure_reported (b : Binding)
    (ccall : Except String Unit) :
    ((b.lib.getD {}).onRuntimeReadyHook = true →
      (fireRuntimeReadyHook (initAsm b).2 ccall).1
        = [AsmEvent.origHook, AsmEvent.ccallNbindInit]) ∧
    ((b.lib.getD {}).onRuntimeReadyHook = false →
      (fireRuntimeReadyHook (initAsm b).2 ccall).1
        = [AsmEvent.ccallNbindInit]) ∧
    (∀ e, ccall = Except.error e →
      (fireRuntimeReadyHook (initAsm b).2 ccall).2
        = [⟨some (InitErr.bootError e), none⟩]) ∧
    (ccall = Except.ok () →
      (fireRuntimeReadyHook (initAsm b).2 ccall).2
        = [⟨none, some (initAsm b).1⟩]) := by
  refine ⟨?_, ?_, ?_, ?_⟩
  · intro horig
    cases ccall <;> simp [fireRuntimeReadyHook, initAsm, horig]
  · intro horig
    cases ccall <;> simp [fireRuntimeReadyHook, initAsm, horig]
  · intro e he
    rw [he]
    rfl
  · intro he
    rw [he]
    rfl

theorem asm_bootstrap_failure_reported_witness :
    (fireRuntimeReadyHook
        (initAsm ⟨some (emccSpecAt "/w/nbind.js"), some {}⟩).2
        (Except.error "nbind_init threw")).2
      = [⟨some (InitErr.bootError "nbind_init threw"), none⟩] :=
  (asm_bootstrap_failure_reported
      ⟨some (emccSpecAt "/w/nbind.js"), some {}⟩
      (Except.error "nbind_init threw")).2.2.1 "nbind_init threw" rfl

/-- Claim C9: on the native-addon branch, initialization reports a load
error exactly when the synchronously loaded value is falsy or not an object;
in that case the binding is left untouched (no keys are copied) and success
is not reported, while an object load reports success exactly once. -/
theorem native_addon_load_check (env : Env) (binding : Binding)
    (spec : ModuleSpec) (hbin : binding.binary = some spec) :
    ((env.requireLoad (spec.path.getD "") = LoadResult.falsy ∨
      env.requireLoad (spec.path.getD "") = LoadResult.nonObject) →
      initNode env binding
        = (binding, [⟨some (InitErr.loadError "Error loading addon"), none⟩])) ∧
    (∀ ms, env.requireLoad (spec.path.getD "") = LoadResult.object ms →
      ∃ b2, initNode env binding = (b2, [⟨none, some b2⟩])) := by
  constructor
  · intro hbad
    rw [initNode_eval env binding spec hbin]
    rcases hbad with hb | hb <;> rw [hb]
  · intro ms hms
    rw [initNode_eval env binding spec hbin, hms]
    exact ⟨_, rfl⟩

theorem native_addon_load_check_witness :
    initNode envNode ⟨some (nodeSpecAt "/bad"), some {}⟩
      = (⟨some (nodeSpecAt "/bad"), some {}⟩,
         [⟨some (InitErr.loadError "Error loading addon"), none⟩]) :=
  (native_addon_load_check envNode ⟨some (nodeSpecAt "/bad"), some {}⟩
      (nodeSpecAt "/bad") rfl).1 (Or.inl (by decide))

/-- Claim C10: `init` also returns a binding synchronously, and on a
native-addon success that returned binding is the very one delivered to the
success callback, already fully populated (binary descriptor and exports
both set) by the time `init` returns, with no pending asynchronous work. -/
theorem init_returns_delivered_binding (env : Env) (basePath : Option String)
    (lib : Option LibObj) (spec : ModuleSpec)
    (hfind : (find env basePath).1 = [FindEvent.found spec])
    (htype : spec.type = ModType.node) (ms : List (String × Nat))
    (hload : env.requireLoad (spec.path.getD "") = LoadResult.object ms) :
    ∃ b finalLib, init env basePath lib = (b, [⟨none, some b⟩], none) ∧
      b.binary = some spec ∧ b.lib = some finalLib := by
  have hemcc : ¬(spec.type = ModType.emcc) := by
    rw [htype]
    decide
  have h2 : init env basePath lib
      = initCallbackBody env lib {} (FindEvent.found spec) := by
    unfold init
    rw [hfind]
    rfl
  have h3 : initCallbackBody env lib {} (FindEvent.found spec)
      = ((initNode env ⟨some spec, some (lib.getD {})⟩).1,
         (initNode env ⟨some spec, some (lib.getD {})⟩).2, none) := by
    simp [initCallbackBody, hemcc]
  rw [h2, h3, initNode_eval env ⟨some spec, some (lib.getD {})⟩ spec rfl,
    hload]
  exact ⟨_, _, rfl, rfl, rfl⟩

theorem init_returns_delivered_binding_witness :
    ∃ b finalLib,
      init envNode (some "/w") none = (b, [⟨none, some b⟩], none) ∧
      b.binary = some (nodeSpecAt "/w/nbind.node") ∧ b.lib = some finalLib :=
  init_returns_delivered_binding envNode (some "/w") none
    (nodeSpecAt "/w/nbind.node") (by decide) rfl [("f", 7), ("g", 8)] rfl

end Nbind
